import Mathlib

/-!
Verification of the atmPy size-distribution module (atmPy/sizedistribution.py).

The development shallowly embeds the data model and the operations of the
module over exact rational arithmetic:

* a distribution table (`SizeDist`) holds bin edges, derived bin centers and
  widths, a representation kind and a list of rows (row key plus per-bin
  values);
* the representation converter `convertST` mirrors the three-block branch
  structure of `SizeDist._convert2otherDistribution` (lines 203-287), with
  the transcendental constants ln 10 and pi abstracted into a parameter
  record `RConsts` so that all arithmetic stays in `Rat`;
* gap filling, the layer-series operations (`addLayer`, `calculate_AOD`) and
  the csv save/load pair are embedded further below.

Python float arithmetic is idealised as exact field arithmetic on `Rat`;
mutation of the `dist` deep copy inside the converter is made explicit by
threading the post-call state of the `self` object as the first component
of `convertST`.
-/

/-- Representation kinds of a size distribution, as listed in the
`distTypes` dictionary and the conversion code of the module. -/
inductive DistType where
  | dNdDp
  | dNdlogDp
  | dSdDp
  | dSdlogDp
  | dVdDp
  | dVdlogDp
  | numberConcentration
  | calibration
deriving DecidableEq, Repr

/-- Abstract stand-ins for the real constants used by the conversion
factors: `ln10` models `np.log(10.)` and `piQ` models `np.pi`.  The code
only multiplies and divides by expressions in these constants, so keeping
them abstract keeps every computation in `Rat`. -/
structure RConsts where
  ln10 : ℚ
  piQ : ℚ
deriving DecidableEq, Repr

/-- Row data of a distribution table: each row is a key (time stamp or
altitude, idealised as a rational) together with the per-bin values. -/
abbrev Rows := List (ℚ × List ℚ)

/-- The distribution table of `class SizeDist`: bin edges, derived bin
centers and widths, the representation kind and the row table. -/
structure SizeDist where
  bins : List ℚ
  bincenters : List ℚ
  binwidth : List ℚ
  distributionType : DistType
  data : Rows
deriving DecidableEq, Repr

/-- The groups of the `distTypes` dictionary: the log normal kinds. -/
def logNormalKinds : List DistType := [.dNdlogDp, .dSdlogDp, .dVdlogDp]

/-- The groups of the `distTypes` dictionary: the natural kinds. -/
def naturalKinds : List DistType := [.dNdDp, .dSdDp, .dVdDp]

/-- The groups of the `distTypes` dictionary: the number kinds. -/
def numberKinds : List DistType := [.dNdlogDp, .dNdDp]

/-- The groups of the `distTypes` dictionary: the surface kinds. -/
def surfaceKinds : List DistType := [.dSdlogDp, .dSdDp]

/-- The groups of the `distTypes` dictionary: the volume kinds. -/
def volumeKinds : List DistType := [.dVdlogDp, .dVdDp]

/-- Errors raised by the module; the original raises `ValueError` with a
message.  `notAnOption t` models the message produced by
`'%s is not an option' % distType`, which carries only the single kind
interpolated into the format string. -/
inductive PyErr where
  | notAnOption (t : DistType)
  | overlappingLayer
  | indexAssignMismatch
  | fuelExhausted
deriving DecidableEq, Repr

/-- Elementwise division of each row of a table by a per-bin factor list,
modelling `dist.data / factors` on a DataFrame. -/
def rowsDiv (rows : Rows) (f : List ℚ) : Rows :=
  rows.map fun r => (r.1, List.zipWith (· / ·) r.2 f)

/-- Elementwise multiplication of each row of a table by a per-bin factor
list, modelling `dist.data * factors` and `dist.data *= factors`. -/
def rowsMul (rows : Rows) (f : List ℚ) : Rows :=
  rows.map fun r => (r.1, List.zipWith (· * ·) r.2 f)

/-- Elementwise quotient of two per-bin factor lists, modelling
expressions such as `self._2Volume() / self._2Surface()`. -/
def listDiv (f g : List ℚ) : List ℚ :=
  List.zipWith (· / ·) f g

/-- The factor of `SizeDist._normal2log`: `self.bincenters * np.log(10.)`. -/
def normal2log (C : RConsts) (sd : SizeDist) : List ℚ :=
  sd.bincenters.map fun c => c * C.ln10

/-- The factor of `SizeDist._2Surface`: `4. * np.pi * (self.bincenters / 2.) ** 2`. -/
def trans2Surface (C : RConsts) (sd : SizeDist) : List ℚ :=
  sd.bincenters.map fun c => 4 * C.piQ * (c / 2) ^ 2

/-- The factor of `SizeDist._2Volume`: `4. / 3. * np.pi * (self.bincenters / 2.) ** 3`. -/
def trans2Volume (C : RConsts) (sd : SizeDist) : List ℚ :=
  sd.bincenters.map fun c => 4 / 3 * C.piQ * (c / 2) ^ 3

/-- Embedding of `SizeDist._convert2otherDistribution` (lines 203-287).
The first component of the result is the state of the `self` object after
the call; every assignment in the method body targets the deep copy
`dist` created on line 205, and each branch of this definition records to
which of the two objects the corresponding Python statement writes.  The
`fuel` argument bounds the recursion of the `numberConcentration` branches
(lines 275-282); the original recursion has depth at most two, so the
entry point below uses fuel 3 and `fuelExhausted` is unreachable from it. -/
def convertST (C : RConsts) : Nat → SizeDist → DistType → SizeDist × Except PyErr SizeDist
  | 0, self, _ => (self, .error .fuelExhausted)
  | fuel + 1, self, distType =>
    -- dist = self.copy(): a deep copy, an independent value from here on
    let dist := self
    if dist.distributionType = distType then
      -- unchanged copy returned (lines 206-210)
      (self, .ok dist)
    else
      -- first block (lines 212-230): the diameter-scaling axis
      let step1 : Except PyErr SizeDist :=
        if dist.distributionType = .numberConcentration then .ok dist
        else if distType = .numberConcentration then .ok dist
        else if dist.distributionType ∈ logNormalKinds then
          if distType ∈ logNormalKinds then .ok dist
          else .ok { dist with data := rowsDiv dist.data (normal2log C self) }
        else if dist.distributionType ∈ naturalKinds then
          if distType ∈ naturalKinds then .ok dist
          else .ok { dist with data := rowsMul dist.data (normal2log C self) }
        else .error (.notAnOption distType)
      match step1 with
      | .error e => (self, .error e)
      | .ok dist =>
        -- second block (lines 232-273): the weighting-basis axis;
        -- dist.distributionType is still the source kind here
        let step2 : Except PyErr SizeDist :=
          if dist.distributionType = .numberConcentration then .ok dist
          else if distType = .numberConcentration then .ok dist
          else if dist.distributionType ∈ numberKinds then
            if distType ∈ numberKinds then .ok dist
            else if distType ∈ surfaceKinds then
              .ok { dist with data := rowsMul dist.data (trans2Surface C self) }
            else if distType ∈ volumeKinds then
              .ok { dist with data := rowsMul dist.data (trans2Volume C self) }
            else .error (.notAnOption distType)
          else if dist.distributionType ∈ surfaceKinds then
            if distType ∈ surfaceKinds then .ok dist
            else if distType ∈ numberKinds then
              .ok { dist with data := rowsDiv dist.data (trans2Surface C self) }
            else if distType ∈ volumeKinds then
              .ok { dist with
                data := rowsMul dist.data (listDiv (trans2Volume C self) (trans2Surface C self)) }
            else .error (.notAnOption distType)
          else if dist.distributionType ∈ volumeKinds then
            if distType ∈ volumeKinds then .ok dist
            else if distType ∈ numberKinds then
              .ok { dist with data := rowsDiv dist.data (trans2Volume C self) }
            else if distType ∈ surfaceKinds then
              .ok { dist with
                data := rowsMul dist.data (listDiv (trans2Surface C self) (trans2Volume C self)) }
            else .error (.notAnOption distType)
          else .error (.notAnOption distType)
        match step2 with
        | .error e => (self, .error e)
        | .ok dist =>
          -- third block (lines 275-282): the numberConcentration special kind
          if distType = .numberConcentration then
            -- dist = dist.convert2dNdDp(); dist.data *= self.binwidth
            match convertST C fuel dist .dNdDp with
            | (_, .error e) => (self, .error e)
            | (_, .ok dist) =>
              let dist := { dist with data := rowsMul dist.data self.binwidth }
              (self, .ok { dist with distributionType := distType })
          else if dist.distributionType = .numberConcentration then
            -- dist.data = dist.data / self.binwidth; treat as dNdDp; recurse
            let dist := { dist with data := rowsDiv dist.data self.binwidth }
            let dist := { dist with distributionType := .dNdDp }
            match convertST C fuel dist distType with
            | (_, .error e) => (self, .error e)
            | (_, .ok dist) => (self, .ok { dist with distributionType := distType })
          else
            -- line 284: dist.distributionType = distType
            (self, .ok { dist with distributionType := distType })

/-- The value returned by `SizeDist._convert2otherDistribution`; fuel 3
covers the recursion depth of the `numberConcentration` branches. -/
def convert2otherDistribution (C : RConsts) (self : SizeDist) (t : DistType) :
    Except PyErr SizeDist :=
  (convertST C 3 self t).2

/-- Wrapper `SizeDist.convert2dNdDp`. -/
def convert2dNdDp (C : RConsts) (self : SizeDist) : Except PyErr SizeDist :=
  convert2otherDistribution C self .dNdDp

/-- Wrapper `SizeDist.convert2numberconcentration`. -/
def convert2numberconcentration (C : RConsts) (self : SizeDist) : Except PyErr SizeDist :=
  convert2otherDistribution C self .numberConcentration

/-- Example constants used by concrete witnesses: any nonzero rational
stand-ins for ln 10 and pi are enough, since the theorems quantify over
`RConsts`. -/
def exampleConsts : RConsts := { ln10 := 2, piQ := 3 }

/-- Example table of kind `dNdDp` with one row. -/
def exampleDNdDp : SizeDist :=
  { bins := [2, 4, 6], bincenters := [3, 5], binwidth := [2, 2],
    distributionType := .dNdDp, data := [(0, [5, 7])] }

/-- Example table of kind `dSdlogDp` with one row. -/
def exampleDSdlogDp : SizeDist :=
  { bins := [2, 4, 6], bincenters := [3, 5], binwidth := [2, 2],
    distributionType := .dSdlogDp, data := [(0, [5, 7])] }

/-- Example table of kind `calibration`. -/
def exampleCalibration : SizeDist :=
  { bins := [2, 4, 6], bincenters := [3, 5], binwidth := [2, 2],
    distributionType := .calibration, data := [(0, [5, 7])] }

/-- C8: converting a table to the kind it already has returns an unchanged
copy of the table, with no arithmetic applied to any entry: the converter
returns the deep copy made on line 205 untouched (lines 206-210). -/
theorem convert_same_kind_noop (C : RConsts) (self : SizeDist) (t : DistType)
    (h : self.distributionType = t) :
    convert2otherDistribution C self t = .ok self := by
  simp [convert2otherDistribution, convertST, h]

/-- Witness for C8 at a concrete table. -/
theorem convert_same_kind_noop_witness :
    convert2otherDistribution exampleConsts exampleDNdDp .dNdDp = .ok exampleDNdDp :=
  convert_same_kind_noop exampleConsts exampleDNdDp .dNdDp rfl

/-- C9: conversion never mutates the source table.  The first component of
`convertST` is the state of the `self` object after the call; it equals the
input for every fuel, source table and target kind, because every
assignment in the method body targets the deep copy `dist`.  All fields of
the source (bins, bin centers, bin widths, kind, row keys and values) are
therefore unchanged, and the returned table is the separate copy. -/
theorem convert_does_not_mutate_source (C : RConsts) (fuel : Nat) (self : SizeDist)
    (t : DistType) :
    (convertST C fuel self t).1 = self := by
  cases fuel with
  | zero => rfl
  | succ n =>
    rw [convertST]
    dsimp only
    repeat' split <;> try rfl

/-- C5 (amended): any conversion with source kind `calibration` and a
different target fails, and the error payload names the kind interpolated
into the `ValueError` message: the requested target for the six axis kinds,
but `dNdDp` when the requested target is `numberConcentration` (the failure
then happens inside the nested `convert2dNdDp` call of line 276).  Any
conversion to `calibration` from a different kind fails with an error
naming `calibration`.  Converting a kind to itself is a no-op copy. -/
theorem convert_calibration_fails (C : RConsts) (self : SizeDist) (t : DistType) :
    (self.distributionType = .calibration → t ≠ .calibration →
      convert2otherDistribution C self t =
        .error (.notAnOption (if t = .numberConcentration then .dNdDp else t)))
    ∧ (t = .calibration → self.distributionType ≠ .calibration →
      convert2otherDistribution C self t = .error (.notAnOption .calibration))
    ∧ (t = self.distributionType → convert2otherDistribution C self t = .ok self) := by
  obtain ⟨bins, bc, bw, dt, da⟩ := self
  refine ⟨?_, ?_, ?_⟩
  · intro h1 h2
    simp only at h1
    subst h1
    cases t <;>
      first
        | exact absurd rfl h2
        | simp [convert2otherDistribution, convertST, logNormalKinds, naturalKinds,
            numberKinds, surfaceKinds, volumeKinds]
  · intro h1 h2
    subst h1
    simp only at h2
    cases dt <;>
      first
        | exact absurd rfl h2
        | simp [convert2otherDistribution, convertST, logNormalKinds, naturalKinds,
            numberKinds, surfaceKinds, volumeKinds]
  · intro h1
    simp only at h1
    subst h1
    simp [convert2otherDistribution, convertST]

/-- Counterexample to C5 as stated: the failure does not identify both the
source and the target kind.  Two tables whose kinds differ produce the very
same error value when conversion to `calibration` fails, so the raised
error cannot identify the source kind; the `ValueError` message
`'%s is not an option' % distType` carries only one kind. -/
theorem convert_calibration_error_source_not_identified :
    convert2otherDistribution exampleConsts exampleDNdDp .calibration =
      convert2otherDistribution exampleConsts exampleDSdlogDp .calibration
    ∧ exampleDNdDp.distributionType ≠ exampleDSdlogDp.distributionType
    ∧ convert2otherDistribution exampleConsts exampleDNdDp .calibration =
        .error (.notAnOption .calibration) := by
  refine ⟨?_, by decide, ?_⟩ <;>
    simp [convert2otherDistribution, convertST, exampleConsts, exampleDNdDp,
      exampleDSdlogDp, logNormalKinds, naturalKinds, numberKinds, surfaceKinds,
      volumeKinds, rowsMul, rowsDiv, normal2log]

/-- Witness for the amended C5 at a concrete calibration table. -/
theorem convert_calibration_fails_witness :
    convert2otherDistribution exampleConsts exampleCalibration .dVdDp =
      .error (.notAnOption .dVdDp) := by
  have h := (convert_calibration_fails exampleConsts exampleCalibration .dVdDp).1
    rfl (by decide)
  simpa using h

/-- The six kinds of the natural/log times number/surface/volume taxonomy;
the union of the log normal and natural groups of `distTypes`. -/
def axisKinds : List DistType :=
  [.dNdDp, .dNdlogDp, .dSdDp, .dSdlogDp, .dVdDp, .dVdlogDp]

/-- Proof-side per-bin weight of an axis kind relative to `dNdDp`: the
product of the factors the converter applies on the way from `dNdDp` to
the kind.  Used only to state the characterisation lemma below. -/
def weight (C : RConsts) (k : DistType) (c : ℚ) : ℚ :=
  match k with
  | .dNdDp => 1
  | .dNdlogDp => c * C.ln10
  | .dSdDp => 4 * C.piQ * (c / 2) ^ 2
  | .dSdlogDp => 4 * C.piQ * (c / 2) ^ 2 * (c * C.ln10)
  | .dVdDp => 4 / 3 * C.piQ * (c / 2) ^ 3
  | .dVdlogDp => 4 / 3 * C.piQ * (c / 2) ^ 3 * (c * C.ln10)
  | _ => 1

/-- Rows rescaled entrywise by a function of the value and the bin center. -/
def scaleData (rows : Rows) (c : List ℚ) (f : ℚ → ℚ → ℚ) : Rows :=
  rows.map fun r => (r.1, List.zipWith f r.2 c)

theorem zipWith_map_factor (f : ℚ → ℚ → ℚ) (φ : ℚ → ℚ) (v c : List ℚ) :
    List.zipWith f v (c.map φ) = List.zipWith (fun x cc => f x (φ cc)) v c := by
  induction v generalizing c with
  | nil => simp
  | cons a v ih => cases c <;> simp [ih]

theorem zipWith_zipWith_factor (f g : ℚ → ℚ → ℚ) (v c : List ℚ) :
    List.zipWith g (List.zipWith f v c) c =
      List.zipWith (fun x cc => g (f x cc) cc) v c := by
  induction v generalizing c with
  | nil => simp
  | cons a v ih => cases c <;> simp [ih]

theorem rowsMul_map (rows : Rows) (c : List ℚ) (φ : ℚ → ℚ) :
    rowsMul rows (c.map φ) = scaleData rows c fun x cc => x * φ cc := by
  simp [rowsMul, scaleData, zipWith_map_factor]

theorem rowsDiv_map (rows : Rows) (c : List ℚ) (φ : ℚ → ℚ) :
    rowsDiv rows (c.map φ) = scaleData rows c fun x cc => x / φ cc := by
  simp [rowsDiv, scaleData, zipWith_map_factor]

theorem listDiv_map_map (c : List ℚ) (φ ψ : ℚ → ℚ) :
    listDiv (c.map φ) (c.map ψ) = c.map fun cc => φ cc / ψ cc := by
  induction c with
  | nil => rfl
  | cons a c ih =>
    simp only [List.map, listDiv, List.zipWith] at ih ⊢
    exact congrArg _ ih

theorem scaleData_comp (rows : Rows) (c : List ℚ) (f g : ℚ → ℚ → ℚ) :
    scaleData (scaleData rows c f) c g =
      scaleData rows c fun x cc => g (f x cc) cc := by
  simp [scaleData, zipWith_zipWith_factor]

theorem zipWith_congr_mem (f g : ℚ → ℚ → ℚ) (v c : List ℚ)
    (h : ∀ x, ∀ cc ∈ c, f x cc = g x cc) :
    List.zipWith f v c = List.zipWith g v c := by
  induction v generalizing c with
  | nil => simp
  | cons a v ih =>
    cases c with
    | nil => simp
    | cons b c =>
      simp only [List.zipWith]
      exact congrArg₂ _ (h a b (by simp)) (ih c fun x cc hcc => h x cc (by simp [hcc]))

theorem scaleData_congr (rows : Rows) (c : List ℚ) (f g : ℚ → ℚ → ℚ)
    (h : ∀ x, ∀ cc ∈ c, f x cc = g x cc) :
    scaleData rows c f = scaleData rows c g := by
  simp only [scaleData]
  exact List.map_congr_left fun r _ => by rw [zipWith_congr_mem f g r.2 c h]

theorem zipWith_self_of_le (f : ℚ → ℚ → ℚ) (v c : List ℚ)
    (h : ∀ x, ∀ cc ∈ c, f x cc = x) (hlen : v.length ≤ c.length) :
    List.zipWith f v c = v := by
  induction v generalizing c with
  | nil => simp
  | cons a v ih =>
    cases c with
    | nil => simp at hlen
    | cons b c =>
      simp only [List.zipWith]
      refine congrArg₂ _ (h a b (by simp)) (ih c (fun x cc hcc => h x cc (by simp [hcc])) ?_)
      simpa using hlen

theorem scaleData_self (rows : Rows) (c : List ℚ) (f : ℚ → ℚ → ℚ)
    (h : ∀ x, ∀ cc ∈ c, f x cc = x)
    (hlen : ∀ r ∈ rows, r.2.length ≤ c.length) :
    scaleData rows c f = rows := by
  simp only [scaleData]
  conv_rhs => rw [← List.map_id rows]
  refine List.map_congr_left fun r hr => ?_
  rw [zipWith_self_of_le f r.2 c h (hlen r hr)]
  rfl

set_option maxHeartbeats 1600000 in
/-- Characterisation of the converter on the six axis kinds: a conversion
between two different axis kinds rescales every entry by the quotient of
the target and source weights of its bin center; bins, bin centers and
bin widths are unchanged. -/
theorem convert_axis_eq (C : RConsts) (self : SizeDist) (k1 k2 : DistType)
    (h1 : self.distributionType = k1) (hk1 : k1 ∈ axisKinds) (hk2 : k2 ∈ axisKinds)
    (hne : k1 ≠ k2) (hl : C.ln10 ≠ 0) (hp : C.piQ ≠ 0)
    (hb : ∀ c ∈ self.bincenters, c ≠ 0) :
    convert2otherDistribution C self k2 =
      .ok { self with
        distributionType := k2,
        data := scaleData self.data self.bincenters
          fun x cc => x * (weight C k2 cc / weight C k1 cc) } := by
  obtain ⟨bins, bc, bw, dt, da⟩ := self
  simp only at h1 hb
  subst h1
  cases dt <;> cases k2 <;>
    first
      | exact absurd rfl hne
      | exact absurd hk1 (by decide)
      | exact absurd hk2 (by decide)
      | (simp [convert2otherDistribution, convertST, logNormalKinds, naturalKinds,
          numberKinds, surfaceKinds, volumeKinds, normal2log, trans2Surface,
          trans2Volume, rowsMul_map, rowsDiv_map, listDiv_map_map, scaleData_comp]
         all_goals refine scaleData_congr _ _ _ _ fun x cc hcc => ?_
         all_goals (have hc : cc ≠ 0 := hb cc hcc; simp only [weight])
         all_goals field_simp
         all_goals (first | ring1 | (left; (first | trivial | ring1))))

/-- Weights of axis kinds are nonzero at nonzero bin centers. -/
theorem weight_ne_zero (C : RConsts) (k : DistType) (c : ℚ)
    (hk : k ∈ axisKinds) (hl : C.ln10 ≠ 0) (hp : C.piQ ≠ 0) (hc : c ≠ 0) :
    weight C k c ≠ 0 := by
  have h2 : (c / 2 : ℚ) ≠ 0 := div_ne_zero hc two_ne_zero
  cases k with
  | dNdDp => exact one_ne_zero
  | dNdlogDp => exact mul_ne_zero hc hl
  | dSdDp => exact mul_ne_zero (mul_ne_zero (by norm_num) hp) (pow_ne_zero _ h2)
  | dSdlogDp =>
    exact mul_ne_zero (mul_ne_zero (mul_ne_zero (by norm_num) hp) (pow_ne_zero _ h2))
      (mul_ne_zero hc hl)
  | dVdDp => exact mul_ne_zero (mul_ne_zero (by norm_num) hp) (pow_ne_zero _ h2)
  | dVdlogDp =>
    exact mul_ne_zero (mul_ne_zero (mul_ne_zero (by norm_num) hp) (pow_ne_zero _ h2))
      (mul_ne_zero hc hl)
  | numberConcentration => exact absurd hk (by decide)
  | calibration => exact absurd hk (by decide)

/-- C1: for a table of any of the six axis kinds and any target among the
six, converting the table to the target kind and then back to the original
kind reproduces the original table exactly (in exact arithmetic, hence in
particular within any relative floating-point tolerance), for all rows and
bins.  Hypotheses: the abstract constants ln 10 and pi are nonzero, bin
centers are nonzero, and rows have no more entries than there are bin
centers. -/
theorem convert_roundtrip_six_kinds (C : RConsts) (self : SizeDist) (k2 : DistType)
    (hk1 : self.distributionType ∈ axisKinds) (hk2 : k2 ∈ axisKinds)
    (hl : C.ln10 ≠ 0) (hp : C.piQ ≠ 0) (hb : ∀ c ∈ self.bincenters, c ≠ 0)
    (hrows : ∀ r ∈ self.data, r.2.length ≤ self.bincenters.length) :
    ∃ mid, convert2otherDistribution C self k2 = .ok mid ∧
      convert2otherDistribution C mid self.distributionType = .ok self := by
  by_cases heq : self.distributionType = k2
  · exact ⟨self, convert_same_kind_noop C self k2 heq,
      convert_same_kind_noop C self self.distributionType rfl⟩
  · obtain ⟨bins, bc, bw, dt, da⟩ := self
    simp only at heq hk1 hb hrows
    apply Exists.intro
    constructor
    · exact convert_axis_eq C ⟨bins, bc, bw, dt, da⟩ dt k2 rfl hk1 hk2 heq hl hp hb
    have h2 := convert_axis_eq C
      ⟨bins, bc, bw, k2, scaleData da bc fun x cc => x * (weight C k2 cc / weight C dt cc)⟩
      k2 dt rfl hk2 hk1 (Ne.symm heq) hl hp hb
    rw [h2]
    simp only [Except.ok.injEq, SizeDist.mk.injEq, true_and]
    rw [scaleData_comp]
    rw [scaleData_self]
    · intro x cc hcc
      have hw1 := weight_ne_zero C dt cc hk1 hl hp (hb cc hcc)
      have hw2 := weight_ne_zero C k2 cc hk2 hl hp (hb cc hcc)
      field_simp
    · exact hrows

/-- Witness for C1 at a concrete one-row table, converting
`dNdDp` to `dVdlogDp` and back. -/
theorem convert_roundtrip_six_kinds_witness :
    ∃ mid, convert2otherDistribution exampleConsts exampleDNdDp .dVdlogDp = .ok mid ∧
      convert2otherDistribution exampleConsts mid .dNdDp = .ok exampleDNdDp := by
  have h := convert_roundtrip_six_kinds exampleConsts exampleDNdDp .dVdlogDp
    (by decide) (by decide) (by decide) (by decide) (by decide) (by decide)
  exact h

/-- Comparison of rows by their key, used to model sorting by index. -/
def keyLe (a b : ℚ × List ℚ) : Prop := a.1 ≤ b.1

instance : DecidableRel keyLe := fun a b => inferInstanceAs (Decidable (a.1 ≤ b.1))

instance : IsTotal (ℚ × List ℚ) keyLe := ⟨fun a b => le_total a.1 b.1⟩

instance : IsTrans (ℚ × List ℚ) keyLe := ⟨fun _ _ _ => le_trans⟩

/-- Stable sort of the rows by key, modelling `DataFrame.sort_index()` and
the old pandas `DataFrame.sort()`. -/
def sortByKey (rows : Rows) : Rows := List.insertionSort keyLe rows

/-- The median of `np.median`: the middle of the sorted values, or the mean
of the two middle values for even length.  The empty case returns 0; in the
original an empty argument yields NaN, every comparison with which is
False, so gap detection finds no gaps there either way. -/
def npMedian (l : List ℚ) : ℚ :=
  let s := l.insertionSort (· ≤ ·)
  if l.length % 2 = 1 then s.getD (l.length / 2) 0
  else (s.getD (l.length / 2 - 1) 0 + s.getD (l.length / 2) 0) / 2

/-- Successive index deltas: `self.data.index[1:] - self.data.index[0:-1]`. -/
def diffsOf (keys : List ℚ) : List ℚ := List.zipWith (· - ·) (keys.drop 1) keys

/-- The gap threshold of `SizeDist.fillGaps` (line 142):
`np.median(diff) * scale`. -/
def fillThreshold (rows : Rows) (scale : ℚ) : ℚ :=
  npMedian (diffsOf (rows.map Prod.fst)) * scale

/-- The gaps found on line 143: `np.where(diff > threshold)` indexes the
delta list, and lines 146-147 read the gap start `index[where]` and gap end
`index[where + 1]`; equivalently, the pairs of consecutive keys whose delta
exceeds the threshold, in index order. -/
def gapsOf (rows : Rows) (scale : ℚ) : List (ℚ × ℚ) :=
  let keys := rows.map Prod.fst
  (List.zip keys (keys.drop 1)).filter fun p => fillThreshold rows scale < p.2 - p.1

/-- Assignment `self.data.loc[key] = values`: overwrites the rows labelled
with the key when the label exists, otherwise appends a new row. -/
def locSet (rows : Rows) (k : ℚ) (v : List ℚ) : Rows :=
  if k ∈ rows.map Prod.fst then rows.map fun r => if r.1 = k then (k, v) else r
  else rows ++ [(k, v)]

/-- Embedding of `SizeDist.fillGaps` (lines 129-153) acting on the row
table; `m` is the number of bin centers (the shape of the inserted zero
rows).  The first component is the emitted warning: the gap count when
gaps were found, and no warning otherwise.  The operation is total. -/
def fillGaps (scale : ℚ) (m : ℕ) (rows : Rows) : Option ℕ × Rows :=
  let gaps := gapsOf rows scale
  if gaps.length ≠ 0 then
    let rows1 := gaps.foldl
      (fun acc g => locSet acc (g.1 + fillThreshold rows scale) (List.replicate m 0)) rows
    let rows2 := gaps.foldl
      (fun acc g => locSet acc (g.2 - fillThreshold rows scale) (List.replicate m 0)) rows1
    (some gaps.length, sortByKey rows2)
  else (none, rows)

/-- A 10-row table whose single gap is 5 times the median spacing 1. -/
def gapRows : Rows :=
  [(0, [1]), (1, [1]), (2, [1]), (3, [1]), (4, [1]), (5, [1]),
   (6, [1]), (7, [1]), (8, [1]), (13, [1])]

/-- Counterexample to C3 as stated: with median delta 1 and default scale
1.1, the rows are inserted at gap start plus threshold 1.1 and gap end
minus threshold, namely at 9.1 and 11.9, not at gap start plus the median
(9) and gap end minus the median (12) as the claim says. -/
theorem fillGaps_cex :
    ((fillGaps (11/10) 1 gapRows).2.map Prod.fst =
      [0, 1, 2, 3, 4, 5, 6, 7, 8, 91/10, 119/10, 13])
    ∧ (9 : ℚ) ∉ (fillGaps (11/10) 1 gapRows).2.map Prod.fst
    ∧ (12 : ℚ) ∉ (fillGaps (11/10) 1 gapRows).2.map Prod.fst := by
  norm_num [fillGaps, gapsOf, fillThreshold, npMedian, diffsOf, locSet, sortByKey,
    gapRows, keyLe, List.insertionSort, List.orderedInsert, List.zipWith, List.filter,
    List.foldl, List.replicate, List.zip, List.zipWithAll]

/-- C3 (amended): on a strictly increasing table with exactly one gap
`(s, e)` wider than twice the threshold, `fillGaps` warns of 1 gap and
inserts exactly two all-zero rows, one at gap start plus the threshold
(median times scale) and one at gap end minus the threshold; the result has
two more rows, a strictly ascending duplicate-free index, and is a
permutation of the original rows plus the two zero rows.  The freshness
hypotheses on the two inserted keys hold automatically in this situation
(all other keys lie outside the open gap interval) and are discharged by
computation in the witness. -/
theorem fillGaps_one_gap (scale : ℚ) (m : ℕ) (rows : Rows) (s e : ℚ)
    (hch : (rows.map Prod.fst).Chain' (· < ·))
    (hg : gapsOf rows scale = [(s, e)])
    (hwide : 2 * fillThreshold rows scale < e - s)
    (hf1 : s + fillThreshold rows scale ∉ rows.map Prod.fst)
    (hf2 : e - fillThreshold rows scale ∉ rows.map Prod.fst) :
    (fillGaps scale m rows).1 = some 1
    ∧ (fillGaps scale m rows).2.length = rows.length + 2
    ∧ ((fillGaps scale m rows).2.map Prod.fst).Chain' (· < ·)
    ∧ (s + fillThreshold rows scale, List.replicate m 0) ∈ (fillGaps scale m rows).2
    ∧ (e - fillThreshold rows scale, List.replicate m 0) ∈ (fillGaps scale m rows).2
    ∧ (fillGaps scale m rows).2.Perm
        (rows ++ [(s + fillThreshold rows scale, List.replicate m 0),
                  (e - fillThreshold rows scale, List.replicate m 0)]) := by
  set θ := fillThreshold rows scale with hθdef
  set z : List ℚ := List.replicate m 0 with hzdef
  have hlt : s + θ < e - θ := by linarith
  have hne : s + θ ≠ e - θ := ne_of_lt hlt
  have hfold1 : (gapsOf rows scale).foldl
      (fun acc g => locSet acc (g.1 + θ) z) rows = rows ++ [(s + θ, z)] := by
    rw [hg]
    simp only [List.foldl_cons, List.foldl_nil]
    rw [locSet, if_neg hf1]
  have hmem2 : e - θ ∉ (rows ++ [(s + θ, z)]).map Prod.fst := by
    simp only [List.map_append, List.mem_append]
    rintro (h | h)
    · exact hf2 h
    · simp at h
      exact hne.symm h
  have hfold2 : (gapsOf rows scale).foldl
      (fun acc g => locSet acc (g.2 - θ) z) (rows ++ [(s + θ, z)]) =
        rows ++ [(s + θ, z), (e - θ, z)] := by
    rw [hg]
    simp only [List.foldl_cons, List.foldl_nil]
    rw [locSet, if_neg hmem2]
    simp
  have hres : fillGaps scale m rows =
      (some 1, sortByKey (rows ++ [(s + θ, z), (e - θ, z)])) := by
    rw [fillGaps]
    simp only [← hzdef, ← hθdef, hg]
    simp only [List.length_cons, List.length_nil]
    rw [if_pos (by norm_num)]
    rw [hg] at hfold1 hfold2
    rw [hfold1, hfold2]
  have hperm : (fillGaps scale m rows).2.Perm
      (rows ++ [(s + θ, z), (e - θ, z)]) := by
    rw [hres]
    exact List.perm_insertionSort keyLe _
  have hpairle : ((fillGaps scale m rows).2.map Prod.fst).Pairwise (· ≤ ·) := by
    rw [hres]
    have hs := List.sorted_insertionSort keyLe (rows ++ [(s + θ, z), (e - θ, z)])
    exact List.pairwise_map.mpr hs
  have hndkeys : ((rows ++ [(s + θ, z), (e - θ, z)]).map Prod.fst).Nodup := by
    have hnd : (rows.map Prod.fst).Nodup :=
      ((List.chain'_iff_pairwise.mp hch).imp ne_of_lt)
    simp only [List.map_append]
    rw [List.nodup_append]
    refine ⟨hnd, by simp [hne], ?_⟩
    intro a ha hb
    simp at hb
    rcases hb with rfl | rfl
    · exact hf1 ha
    · exact hf2 ha
  have hndres : ((fillGaps scale m rows).2.map Prod.fst).Nodup :=
    ((hperm.map Prod.fst).nodup_iff).mpr hndkeys
  refine ⟨?_, ?_, ?_, ?_, ?_, hperm⟩
  · rw [hres]
  · rw [hperm.length_eq]
    simp
  · rw [List.chain'_iff_pairwise]
    exact (hpairle.and hndres).imp fun h => lt_of_le_of_ne h.1 h.2
  · exact (hperm.mem_iff).mpr (by simp)
  · exact (hperm.mem_iff).mpr (by simp)

/-- Witness for the amended C3 on the concrete 10-row table. -/
theorem fillGaps_one_gap_witness :
    (fillGaps (11/10) 1 gapRows).1 = some 1
    ∧ (fillGaps (11/10) 1 gapRows).2.length = gapRows.length + 2
    ∧ ((fillGaps (11/10) 1 gapRows).2.map Prod.fst).Chain' (· < ·)
    ∧ ((8 : ℚ) + fillThreshold gapRows (11/10), [0]) ∈ (fillGaps (11/10) 1 gapRows).2 := by
  have h := fillGaps_one_gap (11/10) 1 gapRows 8 13
    (by simp [gapRows]; norm_num)
    (by norm_num [gapsOf, fillThreshold, npMedian, diffsOf, gapRows,
      List.insertionSort, List.orderedInsert, List.zip, List.zipWith, List.filter])
    (by norm_num [fillThreshold, npMedian, diffsOf, gapRows,
      List.insertionSort, List.orderedInsert, List.zipWith])
    (by norm_num [fillThreshold, npMedian, diffsOf, gapRows,
      List.insertionSort, List.orderedInsert, List.zipWith])
    (by norm_num [fillThreshold, npMedian, diffsOf, gapRows,
      List.insertionSort, List.orderedInsert, List.zipWith])
  exact ⟨h.1, h.2.1, h.2.2.1, by simpa using h.2.2.2.1⟩

/-- Embedding of `SizeDist.__init__` (lines 108-127): bin centers are the
edge midpoints unless explicitly passed, bin widths are the edge
differences, and when row data is given and `fixGaps` holds the gaps are
filled with the default scale 1.1. -/
def SizeDist.init (data : Option Rows) (bins : List ℚ) (distrType : DistType)
    (bincenters : Option (List ℚ)) (fixGaps : Bool) : SizeDist :=
  let centers :=
    match bincenters with
    | some a => a
    | none => List.zipWith (fun x y => (x + y) / 2) (bins.drop 1) bins.dropLast
  let width := List.zipWith (· - ·) (bins.drop 1) bins.dropLast
  match data with
  | none =>
    { bins := bins, bincenters := centers, binwidth := width,
      distributionType := distrType, data := [] }
  | some d =>
    { bins := bins, bincenters := centers, binwidth := width,
      distributionType := distrType,
      data := if fixGaps then (fillGaps (11/10) centers.length d).2 else d }

/-- The layer-series distribution of `class SizeDist_LS`: a distribution
table with layer boundary pairs and layer-center keys. -/
structure SizeDist_LS extends SizeDist where
  layerbounderies : List (ℚ × ℚ)
  layercenters : List ℚ
deriving DecidableEq, Repr

/-- Embedding of `SizeDist_LS.__init__` (lines 464-471) for the
`layerbounderies=None` path used when building a layer series that is
filled by `add_layer`.  Line 465 invokes the base constructor with the
hard-coded arguments `bincenters=False, fixGaps=True`, ignoring whatever
the caller passed for those two parameters. -/
def SizeDist_LS.initNone (data : Option Rows) (bins : List ℚ) (dt : DistType)
    (bincenters : Option (List ℚ)) (fixGaps : Bool) : SizeDist_LS :=
  { toSizeDist := SizeDist.init data bins dt none true,
    layerbounderies := [], layercenters := [] }

/-- C10: the layer-series constructor invokes the base constructor with
`bincenters=False` and `fixGaps=True` regardless of the values the caller
passed: the construction is constant in those two arguments, bin centers
are always recomputed from the edges, and gap filling always runs on
supplied row data. -/
theorem sizeDistLS_init_hardcoded_args
    (data : Option Rows) (bins : List ℚ) (dt : DistType)
    (bc bc' : Option (List ℚ)) (fg fg' : Bool) :
    SizeDist_LS.initNone data bins dt bc fg = SizeDist_LS.initNone data bins dt bc' fg'
    ∧ (SizeDist_LS.initNone data bins dt bc fg).toSizeDist =
        SizeDist.init data bins dt none true
    ∧ (SizeDist_LS.initNone data bins dt bc fg).bincenters =
        List.zipWith (fun x y => (x + y) / 2) (bins.drop 1) bins.dropLast
    ∧ ∀ d : Rows, (SizeDist_LS.initNone (some d) bins dt bc fg).data =
        (fillGaps (11/10)
          (List.zipWith (fun x y => (x + y) / 2) (bins.drop 1) bins.dropLast).length d).2 := by
  refine ⟨rfl, rfl, ?_, fun _ => rfl⟩
  cases data <;> rfl

/-- The sorted distinct values of a list, modelling `np.unique` applied to
the flattened boundary array. -/
def npUnique (l : List ℚ) : List ℚ := (l.insertionSort (· ≤ ·)).dedup

/-- First index of a value in a list, modelling `np.where(arr == x)[0][0]`
for an array that contains `x`. -/
def idxOfQ : List ℚ → ℚ → ℕ
  | [], _ => 0
  | a :: t, x => if a = x then 0 else idxOfQ t x + 1

/-- Membership in the sorted distinct values. -/
theorem npUnique_mem (l : List ℚ) (x : ℚ) : x ∈ npUnique l ↔ x ∈ l := by
  rw [npUnique, List.mem_dedup, List.mem_insertionSort]

/-- The sorted distinct values are strictly increasing. -/
theorem npUnique_pairwise_lt (l : List ℚ) : (npUnique l).Pairwise (· < ·) := by
  have hle : (npUnique l).Pairwise (· ≤ ·) :=
    List.Pairwise.sublist (List.dedup_sublist _) (List.sorted_insertionSort _ l)
  have hnd : (npUnique l).Nodup := List.nodup_dedup _
  exact (hle.and hnd).imp fun h => lt_of_le_of_ne h.1 h.2

/-- In a strictly increasing list, the positions of two members `a < b`
differ by exactly one precisely when no member lies strictly between
them. -/
theorem idx_adjacent_iff (l : List ℚ) (hl : l.Pairwise (· < ·)) (a b : ℚ)
    (hab : a < b) (ha : a ∈ l) (hb : b ∈ l) :
    ((idxOfQ l b : ℤ) - idxOfQ l a = 1) ↔ ∀ c ∈ l, ¬(a < c ∧ c < b) := by
  induction l with
  | nil => simp at ha
  | cons h t ih =>
    have hpc := List.pairwise_cons.mp hl
    by_cases hha : h = a
    · subst hha
      have hbt : b ∈ t := by
        rcases List.mem_cons.mp hb with hEq | hbt
        · exact absurd (hEq ▸ hab) (lt_irrefl _)
        · exact hbt
      have hia : idxOfQ (h :: t) h = 0 := by simp [idxOfQ]
      have hib : idxOfQ (h :: t) b = idxOfQ t b + 1 := by
        simp [idxOfQ, ne_of_lt hab]
      rw [hia, hib]
      cases t with
      | nil => simp at hbt
      | cons t0 t' =>
        constructor
        · intro h1 c hc hcc
          have h0 : idxOfQ (t0 :: t') b = 0 := by push_cast at h1; omega
          have ht0 : t0 = b := by
            by_contra hne
            simp [idxOfQ, hne] at h0
          subst ht0
          rcases List.mem_cons.mp hc with rfl | hct
          · exact absurd hcc.1 (lt_irrefl _)
          · rcases List.mem_cons.mp hct with rfl | hct'
            · exact absurd hcc.2 (lt_irrefl _)
            · have hlt := (List.pairwise_cons.mp hpc.2).1 c hct'
              exact absurd hcc.2 (not_lt.mpr (le_of_lt hlt))
        · intro hno
          have ht0 : t0 = b := by
            by_contra hne
            have hbt' : b ∈ t' := by
              rcases List.mem_cons.mp hbt with hEq | h'
              · exact absurd hEq.symm hne
              · exact h'
            have ht0b : t0 < b := (List.pairwise_cons.mp hpc.2).1 b hbt'
            have hat0 := hpc.1 t0 (by simp [List.mem_cons])
            exact hno t0 (by simp) ⟨hat0, ht0b⟩
          subst ht0
          have h0 : idxOfQ (t0 :: t') t0 = 0 := by simp [idxOfQ]
          rw [h0]
          norm_num
    · have hat : a ∈ t := by
        rcases List.mem_cons.mp ha with hEq | h'
        · exact absurd hEq.symm hha
        · exact h'
      have hbh : h ≠ b := by
        intro hEq
        have := hpc.1 a hat
        rw [hEq] at this
        exact absurd hab (not_lt.mpr (le_of_lt this))
      have hbt : b ∈ t := by
        rcases List.mem_cons.mp hb with hEq | h'
        · exact absurd hEq.symm hbh
        · exact h'
      have hia : idxOfQ (h :: t) a = idxOfQ t a + 1 := by simp [idxOfQ, hha]
      have hib : idxOfQ (h :: t) b = idxOfQ t b + 1 := by simp [idxOfQ, hbh]
      rw [hia, hib]
      have hiff := ih hpc.2 hat hbt
      constructor
      · intro h1 c hc hcc
        rcases List.mem_cons.mp hc with rfl | hct
        · exact absurd hcc.1 (not_lt.mpr (le_of_lt (hpc.1 a hat)))
        · exact (hiff.mp (by push_cast at h1 ⊢; omega)) c hct hcc
      · intro hno
        have h2 := hiff.mpr fun c hc hcc => hno c (List.mem_cons_of_mem _ hc) hcc
        push_cast at h2 ⊢
        omega

/-- The effect of `self.layerbounderies.sort(axis=0)` (line 534) on an
(n, 2) array: each column is sorted independently, so the list of lows and
the list of highs are sorted separately and re-paired positionally. -/
def axisSort (lb : List (ℚ × ℚ)) : List (ℚ × ℚ) :=
  List.zip ((lb.map Prod.fst).insertionSort (· ≤ ·))
    ((lb.map Prod.snd).insertionSort (· ≤ ·))

/-- Row-major flattening of the boundary pair array, as seen by
`np.unique`. -/
def boundaryValues (lb : List (ℚ × ℚ)) : List ℚ := lb.flatMap fun p => [p.1, p.2]

/-- Embedding of `SizeDist_LS.add_layer` (lines 511-540) for a length-2
boundary pair.  The incoming distribution is first converted to the host
kind; the overlap check compares the positions of the two new boundary
values in the merged, sorted, de-duplicated boundary value set; on success
the boundary array is appended and column-sorted, the layer center
`(low + high) / 2` is recorded, and the converted single row is inserted
at the center key with the rows re-sorted.  A row count other than one
makes the index assignment of line 538 fail; that error path leaves the
partially updated boundary fields unmodelled, as no claim concerns it. -/
def addLayer (C : RConsts) (self : SizeDist_LS) (sd : SizeDist) (lbp : ℚ × ℚ) :
    Except PyErr SizeDist_LS :=
  match convert2otherDistribution C sd self.distributionType with
  | .error e => .error e
  | .ok sd1 =>
    let lbs := self.layerbounderies ++ [lbp]
    let lbU := npUnique (boundaryValues lbs)
    if (idxOfQ lbU lbp.2 : ℤ) - idxOfQ lbU lbp.1 ≠ 1 then
      .error .overlappingLayer
    else
      match sd1.data with
      | [(_, v)] =>
        .ok { self with
          toSizeDist := { self.toSizeDist with
            data := sortByKey (self.data ++ [((lbp.1 + lbp.2) / 2, v)]) },
          layerbounderies := axisSort lbs,
          layercenters := (self.layercenters ++ [(lbp.1 + lbp.2) / 2]).insertionSort (· ≤ ·) }
      | _ => .error .indexAssignMismatch

/-- C4: `add_layer` raises the overlap error exactly when some existing
boundary value lies strictly between `low` and `high`; on success the
layer centers gain the midpoint `(low + high) / 2` and stay sorted, the
converted row is inserted at the midpoint key with rows sorted by key, and
the multisets of low and high boundary values gain `low` and `high`
respectively. -/
theorem addLayer_spec (C : RConsts) (self : SizeDist_LS) (sd sd1 : SizeDist)
    (low high k0 : ℚ) (v : List ℚ)
    (hconv : convert2otherDistribution C sd self.distributionType = .ok sd1)
    (hrow : sd1.data = [(k0, v)])
    (hlh : low < high) :
    (addLayer C self sd (low, high) = .error .overlappingLayer ↔
      ∃ b ∈ boundaryValues self.layerbounderies, low < b ∧ b < high)
    ∧ ∀ r, addLayer C self sd (low, high) = .ok r →
        r.layercenters = (self.layercenters ++ [(low + high) / 2]).insertionSort (· ≤ ·)
        ∧ ((low + high) / 2, v) ∈ r.data
        ∧ r.data.Perm (self.data ++ [((low + high) / 2, v)])
        ∧ (r.data.map Prod.fst).Pairwise (· ≤ ·)
        ∧ (r.layerbounderies.map Prod.fst).Perm (self.layerbounderies.map Prod.fst ++ [low])
        ∧ (r.layerbounderies.map Prod.snd).Perm
            (self.layerbounderies.map Prod.snd ++ [high]) := by
  have hbvmem : ∀ x : ℚ, x ∈ boundaryValues (self.layerbounderies ++ [(low, high)]) ↔
      x ∈ boundaryValues self.layerbounderies ∨ x = low ∨ x = high := by
    intro x
    simp [boundaryValues, List.mem_flatMap]
  set U := npUnique (boundaryValues (self.layerbounderies ++ [(low, high)])) with hU
  have hUs : U.Pairwise (· < ·) := npUnique_pairwise_lt _
  have hlowU : low ∈ U := by
    rw [hU, npUnique_mem, hbvmem]
    exact Or.inr (Or.inl rfl)
  have hhighU : high ∈ U := by
    rw [hU, npUnique_mem, hbvmem]
    exact Or.inr (Or.inr rfl)
  have hadj := idx_adjacent_iff U hUs low high hlh hlowU hhighU
  have hbetween : (∃ c ∈ U, low < c ∧ c < high) ↔
      ∃ b ∈ boundaryValues self.layerbounderies, low < b ∧ b < high := by
    constructor
    · rintro ⟨c, hcU, hc⟩
      rw [hU, npUnique_mem, hbvmem] at hcU
      rcases hcU with hc' | rfl | rfl
      · exact ⟨c, hc', hc⟩
      · exact absurd hc.1 (lt_irrefl _)
      · exact absurd hc.2 (lt_irrefl _)
    · rintro ⟨b, hb, hbb⟩
      refine ⟨b, ?_, hbb⟩
      rw [hU, npUnique_mem, hbvmem]
      exact Or.inl hb
  by_cases hcheck : ((idxOfQ U high : ℤ) - idxOfQ U low) = 1
  · have hres : addLayer C self sd (low, high) = .ok { self with
        toSizeDist := { self.toSizeDist with
          data := sortByKey (self.data ++ [((low + high) / 2, v)]) },
        layerbounderies := axisSort (self.layerbounderies ++ [(low, high)]),
        layercenters :=
          (self.layercenters ++ [(low + high) / 2]).insertionSort (· ≤ ·) } := by
      rw [addLayer, hconv]
      simp only [← hU, hcheck]
      rw [if_neg (by simp), hrow]
    refine ⟨?_, ?_⟩
    · rw [hres]
      constructor
      · intro h
        exact absurd h (by simp)
      · rintro hex
        obtain ⟨c, hcU, hcc⟩ := hbetween.mpr hex
        exact absurd hcc (hadj.mp hcheck c hcU)
    · intro r hr
      rw [hres] at hr
      obtain rfl := Except.ok.inj hr
      refine ⟨rfl, ?_, ?_, ?_, ?_, ?_⟩
      · simp [sortByKey, List.mem_insertionSort]
      · exact List.perm_insertionSort keyLe _
      · exact List.pairwise_map.mpr (List.sorted_insertionSort keyLe _)
      · have hlen : (((self.layerbounderies ++ [(low, high)]).map Prod.fst).insertionSort
            (· ≤ ·)).length =
            (((self.layerbounderies ++ [(low, high)]).map Prod.snd).insertionSort
            (· ≤ ·)).length := by
          simp [List.length_insertionSort]
        simp only [axisSort]
        rw [List.map_fst_zip _ _ (le_of_eq hlen)]
        have h2 := List.perm_insertionSort (α := ℚ) (· ≤ ·)
          ((self.layerbounderies ++ [(low, high)]).map Prod.fst)
        simpa using h2
      · have hlen : (((self.layerbounderies ++ [(low, high)]).map Prod.snd).insertionSort
            (· ≤ ·)).length =
            (((self.layerbounderies ++ [(low, high)]).map Prod.fst).insertionSort
            (· ≤ ·)).length := by
          simp [List.length_insertionSort]
        simp only [axisSort]
        rw [List.map_snd_zip _ _ (le_of_eq hlen)]
        have h2 := List.perm_insertionSort (α := ℚ) (· ≤ ·)
          ((self.layerbounderies ++ [(low, high)]).map Prod.snd)
        simpa using h2
  · have hres : addLayer C self sd (low, high) = .error .overlappingLayer := by
      rw [addLayer, hconv]
      simp only [← hU]
      rw [if_pos hcheck]
    refine ⟨?_, ?_⟩
    · rw [hres]
      constructor
      · intro _
        have hnall : ¬∀ c ∈ U, ¬(low < c ∧ c < high) := fun hall => hcheck (hadj.mpr hall)
        push_neg at hnall
        obtain ⟨c, hcU, hcc⟩ := hnall
        exact hbetween.mp ⟨c, hcU, hcc⟩
      · intro _
        rfl
    · intro r hr
      rw [hres] at hr
      exact absurd hr (by simp)

/-- A host layer series with the single layer (100, 200). -/
def exampleHostLS : SizeDist_LS :=
  { bins := [2, 4, 6], bincenters := [3, 5], binwidth := [2, 2],
    distributionType := .dNdDp, data := [(150, [1, 1])],
    layerbounderies := [(100, 200)], layercenters := [150] }

/-- A single-row incoming distribution of the host kind. -/
def exampleLayerSD : SizeDist :=
  { bins := [2, 4, 6], bincenters := [3, 5], binwidth := [2, 2],
    distributionType := .dNdDp, data := [(0, [2, 2])] }

/-- Witness for C4: with an existing layer (100, 200), inserting
(150, 250) raises the overlap error, because the boundary value 200 lies
strictly between 150 and 250. -/
theorem addLayer_spec_witness :
    addLayer exampleConsts exampleHostLS exampleLayerSD (150, 250) =
      .error .overlappingLayer :=
  (addLayer_spec exampleConsts exampleHostLS exampleLayerSD exampleLayerSD 150 250 0 [2, 2]
    (by simp [convert2otherDistribution, convertST, exampleLayerSD, exampleHostLS])
    rfl (by norm_num)).1.mpr
    ⟨200, by simp [boundaryValues, exampleHostLS], by norm_num⟩

/-- A layer series constructed with no layers. -/
def c7Empty : SizeDist_LS := SizeDist_LS.initNone none [2, 4, 6] .dNdDp none true

/-- First incoming single-row distribution for the C7 scenario. -/
def c7SD1 : SizeDist :=
  { bins := [2, 4, 6], bincenters := [3, 5], binwidth := [2, 2],
    distributionType := .dNdDp, data := [(0, [1, 1])] }

/-- Second incoming single-row distribution for the C7 scenario. -/
def c7SD2 : SizeDist :=
  { bins := [2, 4, 6], bincenters := [3, 5], binwidth := [2, 2],
    distributionType := .dNdDp, data := [(0, [9, 9])] }

/-- The layer-series invariant stated by the specification: boundary pairs
are pairwise non-overlapping, there are as many pairs as rows, and each
row key is the midpoint of its pair. -/
def layersInvariant (ls : SizeDist_LS) : Prop :=
  ls.layerbounderies.Pairwise (fun p q => p.2 ≤ q.1 ∨ q.2 ≤ p.1)
  ∧ ls.layerbounderies.length = ls.data.length
  ∧ ls.data.map Prod.fst = ls.layerbounderies.map fun p => (p.1 + p.2) / 2

/-- C7 is violated by the code: starting from a layer series with no
layers, `add_layer (100, 200)` followed by `add_layer (120, 180)` both
succeed — the adjacency check does not detect a new layer strictly inside
an existing one when neither endpoint coincides — and the resulting state
breaks the invariant: the column-sorted boundary pairs become
(100, 180) and (120, 200), which overlap, and the row keys [150, 150] are
no longer the midpoints [140, 160] of the stored pairs. -/
theorem addLayer_invariant_violated :
    addLayer exampleConsts c7Empty c7SD1 (100, 200) = .ok
      { bins := [2, 4, 6], bincenters := [3, 5], binwidth := [2, 2],
        distributionType := .dNdDp, data := [(150, [1, 1])],
        layerbounderies := [(100, 200)], layercenters := [150] }
    ∧ addLayer exampleConsts
      { bins := [2, 4, 6], bincenters := [3, 5], binwidth := [2, 2],
        distributionType := .dNdDp, data := [(150, [1, 1])],
        layerbounderies := [(100, 200)], layercenters := [150] } c7SD2 (120, 180) = .ok
      { bins := [2, 4, 6], bincenters := [3, 5], binwidth := [2, 2],
        distributionType := .dNdDp, data := [(150, [1, 1]), (150, [9, 9])],
        layerbounderies := [(100, 180), (120, 200)], layercenters := [150, 150] }
    ∧ ¬ layersInvariant
      { bins := [2, 4, 6], bincenters := [3, 5], binwidth := [2, 2],
        distributionType := .dNdDp, data := [(150, [1, 1]), (150, [9, 9])],
        layerbounderies := [(100, 180), (120, 200)], layercenters := [150, 150] } := by
  refine ⟨?_, ?_, ?_⟩
  · norm_num [addLayer, convert2otherDistribution, convertST, npUnique, idxOfQ,
      axisSort, boundaryValues, sortByKey, keyLe, c7Empty, c7SD1,
      SizeDist_LS.initNone, SizeDist.init, List.insertionSort, List.orderedInsert,
      List.dedup, List.pwFilter]
  · norm_num [addLayer, convert2otherDistribution, convertST, npUnique, idxOfQ,
      axisSort, boundaryValues, sortByKey, keyLe, c7SD2,
      List.insertionSort, List.orderedInsert, List.dedup, List.pwFilter]
  · rintro ⟨h1, h2, h3⟩
    have := (List.pairwise_cons.mp h1).1 (120, 200) (by simp)
    norm_num at this

/-- Embedding of `_get_coefficients` (lines 851-871).  The statement
`crossection *= 1e-12` multiplies the passed array in place, and the
caller passes the same `mie.extinction_crossection` Series on every loop
iteration, so the mutated array is returned as the first component for the
caller to thread.  `cn *= 1e6` mutates only the local row copy. -/
def getCoefficients (crossection cn : List ℚ) : List ℚ × List ℚ :=
  let crossection := crossection.map (· * (1 / 10 ^ 12))
  let cn := cn.map (· * 10 ^ 6)
  (crossection, List.zipWith (· * ·) cn crossection)

/-- Row lookup `sdls.data.loc[lc].values`: the values of the first row
with the given key. -/
def lookupRow (rows : Rows) (k : ℚ) : List ℚ :=
  ((rows.find? fun r => r.1 == k).map Prod.snd).getD []

/-- The dictionary returned by `calculate_AOD`: the total AOD, the
per-layer AOD values and the per-layer per-bin extinction coefficients. -/
structure AODOutput where
  AOD : ℚ
  AOD_layer : List ℚ
  extCoeffPerLayer : List (List ℚ)
deriving DecidableEq, Repr

/-- Embedding of `SizeDist_LS.calculate_AOD` (lines 473-508).  Modelled
from the spec: the Mie single-particle calculator (`atmPy.mie.bhmie`, not
part of this repository) is the black-box collaborator of the
specification, so its per-bin extinction cross-sections enter as the
`extinction_crossection` parameter computed once before the layer loop.
The loop threads the cross-section array state because
`_get_coefficients` multiplies the passed Series in place on every
iteration. -/
def calculate_AOD (C : RConsts) (extinction_crossection : List ℚ) (self : SizeDist_LS) :
    Except PyErr AODOutput :=
  match convert2otherDistribution C self.toSizeDist .numberConcentration with
  | .error e => .error e
  | .ok sdlsSD =>
    let sdls : SizeDist_LS := { self with toSizeDist := sdlsSD }
    let step := fun (st : List ℚ × List ℚ × List (List ℚ)) (p : ℚ × (ℚ × ℚ)) =>
      let laydata := lookupRow sdls.data p.1
      let res := getCoefficients st.1 laydata
      let thickness := p.2.2 - p.2.1
      (res.1, st.2.1 ++ [(res.2.map (· * thickness)).sum], st.2.2 ++ [res.2])
    let res := (sdls.layercenters.zip sdls.layerbounderies).foldl step
      (extinction_crossection, [], [])
    .ok { AOD := res.2.1.sum, AOD_layer := res.2.1, extCoeffPerLayer := res.2.2 }

/-- Two identical layers of thickness 1000 with one bin holding one
particle per cubic centimeter. -/
def c2LS : SizeDist_LS :=
  { bins := [500, 1500], bincenters := [1000], binwidth := [1000],
    distributionType := .numberConcentration,
    data := [(500, [1]), (1500, [1])],
    layerbounderies := [(0, 1000), (1000, 2000)], layercenters := [500, 1500] }

/-- C2 is violated by the code: with two identical layers (same
concentration, same thickness) and unit cross-section, the computed
per-layer AODs are 1e-3 and 1e-15 rather than twice the same value,
because `_get_coefficients` multiplies the shared cross-section Series by
1e-12 in place on each iteration; the first layer matches the claimed
formula (n x 1e6) x (sigma x 1e-12) but the second uses sigma x 1e-24. -/
theorem calculate_AOD_crossection_mutated :
    calculate_AOD exampleConsts [1] c2LS = .ok
      { AOD := 1 / 10 ^ 3 + 1 / 10 ^ 15,
        AOD_layer := [1 / 10 ^ 3, 1 / 10 ^ 15],
        extCoeffPerLayer := [[1 / 10 ^ 6], [1 / 10 ^ 18]] }
    ∧ (1 / 10 ^ 15 : ℚ) ≠ 1 / 10 ^ 3 := by
  constructor
  · norm_num [calculate_AOD, convert2otherDistribution, convertST, getCoefficients,
      lookupRow, c2LS, exampleConsts, List.foldl, List.zip, List.zipWith, List.find?]
  · norm_num

/-- A header line of the serialized snapshot: the three key-value lines
written by `save_csv`, the terminating line starting with a hash mark, or
any other parseable key-value line. -/
inductive HLine where
  | kvBins (v : List ℚ)
  | kvDistributionType (v : DistType)
  | kvObjectType (v : String)
  | hashLine
  | kvOther
deriving DecidableEq, Repr

/-- A serialized snapshot: header lines followed by the row table that
`DataFrame.to_csv` appends. -/
structure SavedFile where
  header : List HLine
  rows : Rows
deriving DecidableEq, Repr

/-- A distribution object of one of the three specializations. -/
inductive SDObj where
  | base (sd : SizeDist)
  | ts (sd : SizeDist)
  | ls (sd : SizeDist_LS)
deriving DecidableEq, Repr

/-- The underlying distribution table of an object. -/
def sdOf : SDObj → SizeDist
  | .base sd => sd
  | .ts sd => sd
  | .ls sd => sd.toSizeDist

/-- The `type(self).__name__` tag written into the header. -/
def objTypeName : SDObj → String
  | .base _ => "SizeDist"
  | .ts _ => "SizeDist_TS"
  | .ls _ => "SizeDist_LS"

/-- Embedding of `SizeDist.save_csv` (lines 313-321): writes the bins,
the kind and the object type name, a hash line, and then the rows.  Layer
boundaries of a `SizeDist_LS` are not written. -/
def save_csv (o : SDObj) : SavedFile :=
  { header := [.kvBins (sdOf o).bins, .kvDistributionType (sdOf o).distributionType,
      .kvObjectType (objTypeName o), .hashLine],
    rows := (sdOf o).data }

/-- Errors of the loader: the `TypeError` raised after 50 header lines
without a hash line (the NotASizeDistribution of the specification), the
`TypeError` for an unknown object type, the `TypeError` raised by calling
`SizeDist_LS(data, bins, kind, fixGaps=...)` without the required
positional `layerbounderies` argument, the `IndexError` of reading past
the end of the file, and the `KeyError` of a missing header field. -/
inductive ReadErr where
  | notASizeDistribution
  | unknownObjectType
  | missingRequiredArg
  | indexError
  | keyError
deriving DecidableEq, Repr

/-- The `outDict` accumulated while scanning the header. -/
structure HeaderDict where
  bins : Option (List ℚ)
  distributionType : Option DistType
  objectType : Option String
deriving DecidableEq, Repr

/-- The header loop of `read_distribution_csv` (lines 27-39): processes
up to 50 lines, stops at a line that starts with a hash mark, and raises
after the fiftieth header line. -/
def scanHeader : ℕ → List HLine → HeaderDict → Except ReadErr HeaderDict
  | _, [], _ => .error .indexError
  | i, l :: rest, d =>
    match l with
    | .hashLine => .ok d
    | .kvBins v =>
      if i = 49 then .error .notASizeDistribution
      else scanHeader (i + 1) rest { d with bins := some v }
    | .kvDistributionType v =>
      if i = 49 then .error .notASizeDistribution
      else scanHeader (i + 1) rest { d with distributionType := some v }
    | .kvObjectType v =>
      if i = 49 then .error .notASizeDistribution
      else scanHeader (i + 1) rest { d with objectType := some v }
    | .kvOther =>
      if i = 49 then .error .notASizeDistribution
      else scanHeader (i + 1) rest d

/-- Embedding of `read_distribution_csv` (lines 22-51): scans the header,
then dispatches on the `objectType` tag.  The `SizeDist_LS` branch of line
48 calls the constructor without the required `layerbounderies` argument
(which `save_csv` never wrote), so it raises a `TypeError` before any
object is built. -/
def read_distribution_csv (f : SavedFile) (fixGaps : Bool) : Except ReadErr SDObj :=
  match scanHeader 0 f.header ⟨none, none, none⟩ with
  | .error e => .error e
  | .ok d =>
    match d.bins, d.distributionType, d.objectType with
    | some bins, some dt, some ot =>
      if ot = "SizeDist_TS" then
        .ok (.ts (SizeDist.init (some f.rows) bins dt none fixGaps))
      else if ot = "SizeDist" then
        .ok (.base (SizeDist.init (some f.rows) bins dt none fixGaps))
      else if ot = "SizeDist_LS" then .error .missingRequiredArg
      else .error .unknownObjectType
    | _, _, _ => .error .keyError

/-- C6 is violated by the code: saving a `SizeDist_LS` and loading the
produced file fails — the loader dispatch for the `SizeDist_LS` tag omits
the required `layerbounderies` constructor argument (and the boundaries
are never serialized), so the round trip cannot reproduce the object.  The
loader contract parts of the claim hold: an unknown `objectType` fails
with the unknown-type error, and a file whose first 50 lines contain no
hash line fails with the not-a-size-distribution error. -/
theorem read_save_LS_crashes :
    read_distribution_csv (save_csv (.ls exampleHostLS)) true = .error .missingRequiredArg
    ∧ read_distribution_csv
        { header := [.kvBins [2, 4], .kvDistributionType .dNdDp,
            .kvObjectType "SomethingElse", .hashLine], rows := [] } true =
        .error .unknownObjectType
    ∧ read_distribution_csv
        { header := List.replicate 50 HLine.kvOther, rows := [] } true =
        .error .notASizeDistribution := by
  refine ⟨rfl, rfl, ?_⟩
  rfl
